import Mathlib

/-!
Shallow embedding of `aws-eks-get-token` (src/main.go) in Lean 4.

The program is a CLI that generates Kubernetes `ExecCredential` bearer tokens
for EKS clusters and caches them on disk.  External effects (AWS SDK calls,
the filesystem, the clock, environment variables) are modelled as explicit
inputs: each effectful call site of the Go code becomes a parameter holding
that call's result, and the pure control flow around those calls is
translated directly.  Go errors become `Except String`, `os.Exit` becomes an
explicit `exit` outcome, and a Go runtime panic becomes an explicit
`goPanic` outcome.  Machine integers of the source (`int` TTL, times in
seconds) are modelled as `Int`; byte strings as `List Nat`.
-/

namespace AwsEksGetToken

/-- Token record status block, mirroring the anonymous struct inside
`EKSTokenResponse` in src/main.go (fields `expirationTimestamp`, `token`,
`clientCertificateData`, `clientKeyData`). -/
structure TokenStatus where
  ExpirationTimestamp : String
  Token : String
  ClientCertificateData : String
  ClientKeyData : String
deriving Repr, DecidableEq

/-- `EKSTokenResponse` from src/main.go: the record that is cached on disk and
emitted on stdout. -/
structure EKSTokenResponse where
  Kind : String
  APIVersion : String
  Status : TokenStatus
deriving Repr, DecidableEq

/-- `Params` from src/main.go: configuration parameters of one invocation. -/
structure Params where
  ClusterName : String
  ClusterId : String
  Region : String
  Profile : String
  RoleArn : String
  IgnoreCache : Bool
  ClientCertFile : String
  ClientKeyFile : String
  TTL : Int
  Output : String
  STSRegionalEndpoint : String
  CacheDir : String
deriving Repr, DecidableEq

/-- Constant `defaultTTL = 900` from src/main.go. -/
def defaultTTL : Int := 900

/-- Constant `presignExpires = 60` from src/main.go. -/
def presignExpires : Int := 60

/-- Permission bits passed to `os.MkdirAll(cacheDir, 0755)` in
`getCacheFilePath` (src/main.go line 224). -/
def mkdirCacheDirPerm : Nat := 0o755

/-- Permission bits passed to `os.WriteFile(cacheFile, data, 0600)` in
`writeCachedToken` (src/main.go line 283). -/
def writeCacheFilePerm : Nat := 0o600

/-- Modelled from the spec: a Unix permission value restricts access to the
owning user exactly when all group and other bits (the low six bits) are
zero.  Used to compare the permissions the code actually passes against the
spec sentence "Directory is created with owner-only traversal; file is
created with owner-only read/write". -/
def ownerOnlyPerm (perm : Nat) : Prop := perm % 64 = 0

/-! ## Base64url encoding (Go `base64.RawURLEncoding`) -/

/-- The base64url alphabet used by Go `base64.RawURLEncoding`. -/
def base64URLAlphabet : List Char :=
  "ABCDEFGHIJKLMNOPQRSTUVWXYZabcdefghijklmnopqrstuvwxyz0123456789-_".data

/-- Character for one 6-bit group. -/
def b64Char (n : Nat) : Char := base64URLAlphabet.getD (n % 64) 'A'

/-- 6-bit groups of a byte sequence, three input bytes per four output
groups, with the unpadded tail handling of `RawURLEncoding` (one trailing
byte yields two groups, two trailing bytes yield three). -/
def b64Indices : List Nat → List Nat
  | [] => []
  | [b0] => [b0 / 4, b0 % 4 * 16]
  | [b0, b1] => [b0 / 4, b0 % 4 * 16 + b1 / 16, b1 % 16 * 4]
  | b0 :: b1 :: b2 :: rest =>
      b0 / 4 :: (b0 % 4 * 16 + b1 / 16) :: (b1 % 16 * 4 + b2 / 64) :: b2 % 64 ::
        b64Indices rest

/-- Go `base64.RawURLEncoding.EncodeToString`: base64url without padding. -/
def encodeRawURL (bs : List Nat) : List Char := (b64Indices bs).map b64Char

/-- Go `strings.TrimRight(s, "=")`: remove every trailing `=` character
(src/main.go line 407). -/
def trimRightEquals (s : String) : String :=
  ⟨(s.data.reverse.dropWhile (fun c => c == '=')).reverse⟩

/-- The fixed version marker `"k8s-aws-v1."` (src/main.go line 401). -/
def tokenV1Marker : String := "k8s-aws-v1."

/-- Token construction of `generateEKSToken` (src/main.go lines 400-407):
`"k8s-aws-v1." + base64.RawURLEncoding.EncodeToString(url)` followed by
`strings.TrimRight(token, "=")`.  The presigned URL is modelled as its byte
sequence. -/
def mkToken (url : List Nat) : String :=
  trimRightEquals (tokenV1Marker ++ (⟨encodeRawURL url⟩ : String))

/-! ## Token generation (`generateEKSToken`, `fetchNewToken`) -/

/-- Outcome of `generateEKSToken`: either the process exits via `os.Exit`
(src/main.go line 397) or the token string and expiration instant are
returned.  The Go function's `error` return value is `nil` on every path, so
there is no error variant. -/
inductive GenResult where
  | exit (code : Nat)
  | ok (token : String) (expiration : Int)
deriving Repr, DecidableEq

/-- The headers `generateEKSToken` injects into the presign request:
`x-k8s-aws-id` bound to the cluster and `X-Amz-Expires` set to
`strconv.Itoa(presignExpires)` (src/main.go lines 382-385). -/
def presignHeaders (clusterName : String) : List (String × String) :=
  [("x-k8s-aws-id", clusterName), ("X-Amz-Expires", toString presignExpires)]

/-- `generateEKSToken` from src/main.go (lines 375-410).  The external
presigner is a parameter mapping the injected headers to either a presigned
URL (as bytes) or a failure (`none`).  On presign failure the Go code prints
to stderr and calls `os.Exit(1)`; on success, the expiration is
`time.Now().UTC().Add(ttl seconds)`, with `now` the clock reading in
seconds. -/
def generateEKSToken (presign : List (String × String) → Option (List Nat))
    (now : Int) (clusterName : String) (ttl : Int) : GenResult :=
  match presign (presignHeaders clusterName) with
  | none => .exit 1
  | some url => .ok (mkToken url) (now + ttl)

/-- Outcome of a step that can exit the process, fail with a Go error, or
succeed. -/
inductive ProcResult (α : Type) where
  | exit (code : Nat)
  | err (msg : String)
  | ok (val : α)
deriving Repr, DecidableEq

/-- `fetchNewToken` from src/main.go (lines 286-340).  `cfgResult` is the
outcome of `loadAWSConfig`, `describeResult` the outcome of
`eksClient.DescribeCluster`, `fmtRFC3339` the external
`time.Time.Format(time.RFC3339)` applied to the expiration instant. -/
def fetchNewToken (cfgResult describeResult : Except String Unit)
    (presign : List (String × String) → Option (List Nat))
    (fmtRFC3339 : Int → String) (now : Int) (params : Params) :
    ProcResult EKSTokenResponse :=
  match cfgResult with
  | .error e => .err ("failed to load AWS config: " ++ e)
  | .ok _ =>
    match describeResult with
    | .error e => .err ("failed to describe cluster: " ++ e)
    | .ok _ =>
      match generateEKSToken presign now
          (if params.ClusterId ≠ "" then params.ClusterId else params.ClusterName)
          params.TTL with
      | .exit c => .exit c
      | .ok token expiration =>
        .ok { Kind := "ExecCredential",
              APIVersion := "client.authentication.k8s.io/v1beta1",
              Status := { ExpirationTimestamp := fmtRFC3339 expiration,
                          Token := token,
                          ClientCertificateData := "",
                          ClientKeyData := "" } }

/-! ## Cache path derivation (`getCacheFilePath`) -/

/-- Outcome of a Go computation that can abort with a runtime panic. -/
inductive GoStep (α : Type) where
  | goPanic (msg : String)
  | ok (val : α)
deriving Repr, DecidableEq

/-- Message of the Go runtime panic raised by an out-of-range string slice. -/
def sliceOutOfRangeMsg : String := "runtime error: slice bounds out of range"

/-- Go string slicing `s[i:j]` on the character level: defined when
`i ≤ j ≤ len(s)`, otherwise the Go runtime panics (modelled as `none`). -/
def goStringSlice (s : String) (i j : Nat) : Option String :=
  if i ≤ j ∧ j ≤ s.length then some ⟨(s.data.drop i).take (j - i)⟩ else none

/-- Go `strings.Split(s, sep)` for a one-character separator, on character
lists.  Always returns a non-empty list; splitting the empty string yields
`[[]]`, matching Go. -/
def splitOnChar (sep : Char) : List Char → List (List Char)
  | [] => [[]]
  | c :: rest =>
    match splitOnChar sep rest with
    | [] => [[c]]
    | h :: t => if c = sep then [] :: h :: t else (c :: h) :: t

/-- Whether a path is rooted: Go `len(path) > 0 && path[0] == '/'` (the Unix
separator; this model targets Unix paths, as does the program's use). -/
def isRooted (path : String) : Bool :=
  match path.data with
  | [] => false
  | c :: _ => c == '/'

/-- The element loop of Go `path/filepath.Clean` over the `/`-separated
segments of the path, with `acc` the output stack in reverse order: empty
and `.` segments are dropped, `..` pops a preceding non-`..` element (and is
dropped at the root), every other segment is pushed. -/
def cleanStack (rooted : Bool) (acc : List (List Char)) :
    List (List Char) → List (List Char)
  | [] => acc
  | seg :: rest =>
    if seg = [] ∨ seg = ['.'] then cleanStack rooted acc rest
    else if seg = ['.', '.'] then
      match acc with
      | [] => if rooted then cleanStack rooted [] rest
              else cleanStack rooted [seg] rest
      | top :: others =>
        if top = ['.', '.'] then cleanStack rooted (seg :: acc) rest
        else cleanStack rooted others rest
    else cleanStack rooted (seg :: acc) rest

/-- Go `strings.Join(segs, "/")` on character lists. -/
def joinSegs : List (List Char) → List Char
  | [] => []
  | [seg] => seg
  | seg :: rest => seg ++ '/' :: joinSegs rest

/-- Assembly of the `Clean` result: root the joined stack when the input was
rooted, and return `"."` when everything was eliminated. -/
def cleanOut (rooted : Bool) (stack : List (List Char)) : String :=
  match (if rooted then ['/'] else []) ++ joinSegs stack with
  | [] => "."
  | out => ⟨out⟩

/-- Go `path/filepath.Clean` (Unix): collapse repeated separators, drop `.`
elements, resolve `..` elements, drop a trailing separator, returning `"."`
for an empty result. -/
def goFilepathClean (path : String) : String :=
  cleanOut (isRooted path)
    ((cleanStack (isRooted path) [] (splitOnChar '/' path.data)).reverse)

/-- Go `path/filepath.Join(a, b)`: join the non-empty elements with `/` and
`Clean` the result; all-empty input yields the empty string. -/
def goFilepathJoin (a b : String) : String :=
  if a = "" then (if b = "" then "" else goFilepathClean b)
  else goFilepathClean (a ++ "/" ++ b)

/-- The rooted flag of a joined path `d ++ "/" ++ name`, determined by the
directory part alone. -/
def rootedOf (d : List Char) : Bool :=
  match d with
  | [] => true
  | c :: _ => c == '/'

/-- The output stack `Clean` builds for the directory part of a joined path:
every later slash-free file-name segment lands on top of it. -/
def cleanJoinedStack (d : List Char) : List (List Char) :=
  (cleanStack (rootedOf d) [] (splitOnChar '/' d)).reverse

/-- The character prefix `Clean` puts before the final slash-free segment of
a joined path; it depends only on the directory part. -/
def cleanJoinedPre (d : List Char) : List Char :=
  (if rootedOf d then ['/'] else []) ++
    (match cleanJoinedStack d with
     | [] => []
     | _ :: _ => joinSegs (cleanJoinedStack d) ++ ['/'])

/-- Short-name extraction for an ARN-shaped cluster id (src/main.go lines
234-240): split on `/` and take the last segment, falling back to the whole
id when the split result is empty (dead in practice, as in the source). -/
def extractShortClusterName (clusterId : String) : String :=
  match (splitOnChar '/' clusterId.data).getLast? with
  | some lastPart => ⟨lastPart⟩
  | none => clusterId

/-- Cluster-identifier selection of `getCacheFilePath` (src/main.go lines
229-247): if `ClusterId` is set, test whether its first four characters are
`"arn:"` — the slice `ClusterId[0:4]` panics when the id is shorter than
four characters — and extract the short name from an ARN; otherwise use
`ClusterName`. -/
def clusterIdentifierOf (params : Params) : GoStep String :=
  if params.ClusterId ≠ "" then
    match goStringSlice params.ClusterId 0 4 with
    | none => .goPanic sliceOutOfRangeMsg
    | some first4 =>
      if first4 = "arn:" then .ok (extractShortClusterName params.ClusterId)
      else .ok params.ClusterId
  else .ok params.ClusterName

/-- Cache file name `fmt.Sprintf("%s_%s.json", clusterIdentifier, region)`
(src/main.go line 249). -/
def cacheFileName (clusterIdentifier region : String) : String :=
  clusterIdentifier ++ "_" ++ region ++ ".json"

/-- The path-building tail of `getCacheFilePath` (src/main.go lines 229-250),
after the cache directory has been resolved and created: the file name is
joined to the directory with `filepath.Join`, including its `Clean`. -/
def getCacheFilePathCore (cacheDir : String) (params : Params) : GoStep String :=
  match clusterIdentifierOf params with
  | .goPanic m => .goPanic m
  | .ok ci => .ok (goFilepathJoin cacheDir (cacheFileName ci params.Region))

/-- `expandHomeDir` from src/main.go (lines 198-207): expand a leading `~`
using `os.UserHomeDir`, returning the path unchanged when the home directory
cannot be determined. -/
def expandHomeDir (homeDir : Except String String) (path : String) : String :=
  match path.data with
  | '~' :: rest =>
    match homeDir with
    | .error _ => path
    | .ok h => goFilepathJoin h ⟨rest⟩
  | _ => path

/-- A directory-creation side effect: `os.MkdirAll(dir, perm)`. -/
structure MkdirOp where
  dir : String
  perm : Nat
deriving Repr, DecidableEq

/-- Full outcome of `getCacheFilePath`. -/
inductive CacheFileResult where
  | goPanic (msg : String)
  | err (msg : String)
  | ok (path : String)
deriving Repr, DecidableEq

/-- `getCacheFilePath` from src/main.go (lines 209-251).  `homeDir` is the
outcome of `os.UserHomeDir`, `mkdirResult` the outcome of `os.MkdirAll` on
the resolved cache directory.  Besides the path outcome, the
`MkdirOp` actually attempted (directory and permission bits) is returned,
`none` when directory resolution failed before the `MkdirAll` call. -/
def getCacheFilePath (homeDir : Except String String)
    (mkdirResult : Except String Unit) (params : Params) :
    CacheFileResult × Option MkdirOp :=
  match (if params.CacheDir ≠ "" then
           Except.ok (expandHomeDir homeDir params.CacheDir)
         else
           match homeDir with
           | .error e => Except.error ("failed to get user home directory: " ++ e)
           | .ok h => Except.ok (goFilepathJoin h ".kube/cache/tokens")) with
  | .error e => (.err e, none)
  | .ok cacheDir =>
    match mkdirResult with
    | .error e =>
      (.err ("failed to create cache directory: " ++ e),
       some { dir := cacheDir, perm := mkdirCacheDirPerm })
    | .ok _ =>
      (match getCacheFilePathCore cacheDir params with
       | .goPanic m => .goPanic m
       | .ok p => .ok p,
       some { dir := cacheDir, perm := mkdirCacheDirPerm })

/-! ## Cache read/validate/write -/

/-- `isTokenValid` from src/main.go (lines 267-275): parse the stored
RFC3339 expiration; an unparseable timestamp is invalid; otherwise the
record is valid iff the expiration is strictly after the clock reading
(`expiration.After(now)`).  The external `time.Parse(time.RFC3339, ·)` is
the parameter `parse`, returning the parsed instant in seconds. -/
def isTokenValid (parse : String → Option Int) (token : EKSTokenResponse)
    (now : Int) : Bool :=
  match parse token.Status.ExpirationTimestamp with
  | none => false
  | some expiration => decide (now < expiration)

/-- A file-write side effect of `writeCachedToken`: the path, the record
serialized into the file, and the permission bits of `os.WriteFile`. -/
structure WriteOp where
  path : String
  record : EKSTokenResponse
  perm : Nat
deriving Repr, DecidableEq

/-- `writeCachedToken` from src/main.go (lines 277-284) as the write
operation it performs: `json.MarshalIndent` of this record type never fails,
so the function always reaches `os.WriteFile(cacheFile, data, 0600)`. -/
def writeCachedToken (cacheFile : String) (token : EKSTokenResponse) : WriteOp :=
  { path := cacheFile, record := token, perm := writeCacheFilePerm }

/-- `addClientCertificates` from src/main.go (lines 412-430).  `certRead` and
`keyRead` are the outcomes of `os.ReadFile` on the two configured paths. -/
def addClientCertificates (certRead keyRead : Except String String)
    (params : Params) (token : EKSTokenResponse) :
    Except String EKSTokenResponse :=
  match (if params.ClientCertFile ≠ "" then
           match certRead with
           | .error e => Except.error ("failed to read client certificate file: " ++ e)
           | .ok d =>
             Except.ok { token with
               Status := { token.Status with ClientCertificateData := d } }
         else Except.ok token) with
  | .error e => .error e
  | .ok tok1 =>
    if params.ClientKeyFile ≠ "" then
      match keyRead with
      | .error e => .error ("failed to read client key file: " ++ e)
      | .ok d =>
        .ok { tok1 with Status := { tok1.Status with ClientKeyData := d } }
    else .ok tok1

/-! ## Orchestrator (`getEKSToken`) -/

/-- All external-call results one invocation of `getEKSToken` can consume. -/
structure Env where
  homeDir : Except String String
  mkdirResult : Except String Unit
  readResult : Option EKSTokenResponse
  parseTime : String → Option Int
  fmtTime : Int → String
  now : Int
  certRead : Except String String
  keyRead : Except String String
  cfgResult : Except String Unit
  describeResult : Except String Unit
  presign : List (String × String) → Option (List Nat)
  writeResult : Except String Unit

/-- How the invocation ends: a Go panic, a direct `os.Exit`, an error
returned to `main` (printed and exit 1), or success with the record emitted
on stdout. -/
inductive ExecResult where
  | goPanic (msg : String)
  | exit (code : Nat)
  | err (msg : String)
  | ok (emitted : EKSTokenResponse)
deriving Repr, DecidableEq

/-- Observable result of one `getEKSToken` invocation: the final outcome,
the cache write that was attempted (if the write call was reached), and the
warnings printed to stderr. -/
structure RunResult where
  result : ExecResult
  written : Option WriteOp
  warnings : List String
deriving Repr, DecidableEq

/-- The guarded augmentation of src/main.go lines 453-458 and 471-475: the
certificate step runs only when a certificate or key file is configured, and
its error is wrapped as `failed to add client certificates`. -/
def augmentStep (certRead keyRead : Except String String) (params : Params)
    (token : EKSTokenResponse) : Except String EKSTokenResponse :=
  if params.ClientCertFile ≠ "" ∨ params.ClientKeyFile ≠ "" then
    match addClientCertificates certRead keyRead params token with
    | .error e => .error ("failed to add client certificates: " ++ e)
    | .ok tok => .ok tok
  else .ok token

/-- Strip of src/main.go lines 478-480: the copy cached on disk has its
certificate and key fields blanked. -/
def stripSecrets (t : EKSTokenResponse) : EKSTokenResponse :=
  { t with Status :=
      { t.Status with ClientCertificateData := "", ClientKeyData := "" } }

/-- The persist-and-emit tail of `getEKSToken` (src/main.go lines 477-494):
unless the cache is bypassed, re-derive the cache path, attempt the write
with the stripped record, degrade a write failure to a warning, and emit the
un-stripped token. -/
def persistStep (env : Env) (params : Params) (emit : EKSTokenResponse) :
    RunResult :=
  if params.IgnoreCache then { result := .ok emit, written := none, warnings := [] }
  else
    match (getCacheFilePath env.homeDir env.mkdirResult params).1 with
    | .goPanic m => { result := .goPanic m, written := none, warnings := [] }
    | .err e =>
      { result := .err ("failed to get cache file path: " ++ e),
        written := none, warnings := [] }
    | .ok cacheFile =>
      match env.writeResult with
      | .error e =>
        { result := .ok emit,
          written := some (writeCachedToken cacheFile (stripSecrets emit)),
          warnings := ["Warning: failed to cache token: " ++ e] }
      | .ok _ =>
        { result := .ok emit,
          written := some (writeCachedToken cacheFile (stripSecrets emit)),
          warnings := [] }

/-- The cache-miss branch of `getEKSToken` (src/main.go lines 464-494):
fetch a fresh token, augment it, persist and emit. -/
def freshTokenPath (env : Env) (params : Params) : RunResult :=
  match fetchNewToken env.cfgResult env.describeResult env.presign env.fmtTime
      env.now params with
  | .exit c => { result := .exit c, written := none, warnings := [] }
  | .err e =>
    { result := .err ("failed to fetch new token: " ++ e),
      written := none, warnings := [] }
  | .ok token =>
    match augmentStep env.certRead env.keyRead params token with
    | .error e => { result := .err e, written := none, warnings := [] }
    | .ok emit => persistStep env params emit

/-- `getEKSToken` from src/main.go (lines 442-495): consult the cache unless
bypassed, emit a valid cached record (augmented on the fly) without
rewriting it, and otherwise take the fresh-token path. -/
def getEKSToken (env : Env) (params : Params) : RunResult :=
  if params.IgnoreCache then freshTokenPath env params
  else
    match (getCacheFilePath env.homeDir env.mkdirResult params).1 with
    | .goPanic m => { result := .goPanic m, written := none, warnings := [] }
    | .err e =>
      { result := .err ("failed to get cache file path: " ++ e),
        written := none, warnings := [] }
    | .ok _ =>
      match env.readResult with
      | some cached =>
        if isTokenValid env.parseTime cached env.now then
          match augmentStep env.certRead env.keyRead params cached with
          | .error e => { result := .err e, written := none, warnings := [] }
          | .ok tok => { result := .ok tok, written := none, warnings := [] }
        else freshTokenPath env params
      | none => freshTokenPath env params

/-! ## Configuration resolution (`PreRunE`) -/

/-- Region resolution of src/main.go lines 122-131: flag, then `AWS_REGION`,
then `AWS_DEFAULT_REGION`.  Environment variables are Go `os.Getenv`
results, with `""` meaning unset. -/
def resolveRegion (envAwsRegion envAwsDefaultRegion : String) (p : Params) :
    Option String :=
  if p.Region ≠ "" then some p.Region
  else if envAwsRegion ≠ "" then some envAwsRegion
  else if envAwsDefaultRegion ≠ "" then some envAwsDefaultRegion
  else none

/-- Profile resolution of src/main.go lines 133-138. -/
def resolveProfile (envAwsProfile : String) (p : Params) : String :=
  if p.Profile = "" ∧ envAwsProfile ≠ "" then envAwsProfile else p.Profile

/-- STS endpoint resolution of src/main.go lines 140-148, defaulting to
`"regional"` when both flag and environment are absent. -/
def resolveSTSEndpoint (envSTSEndpoint : String) (p : Params) : String :=
  if p.STSRegionalEndpoint = "" then
    (if envSTSEndpoint ≠ "" then envSTSEndpoint else "regional")
  else p.STSRegionalEndpoint

/-- `rootCmd.PreRunE` from src/main.go (lines 114-166): validation and
environment merging.  Quote characters of the Go error format strings are
omitted from the messages. -/
def preRunE (envAwsRegion envAwsDefaultRegion envAwsProfile envSTSEndpoint :
    String) (p : Params) : Except String Params :=
  if p.ClusterName = "" ∧ p.ClusterId = "" then
    Except.error "either --cluster-name or --cluster-id must be specified"
  else if p.ClusterName ≠ "" ∧ p.ClusterId ≠ "" then
    Except.error "--cluster-name and --cluster-id are mutually exclusive"
  else
    match resolveRegion envAwsRegion envAwsDefaultRegion p with
    | none =>
      Except.error
        "region must be specified via --region flag or AWS_REGION/AWS_DEFAULT_REGION environment variable"
    | some region =>
      if resolveSTSEndpoint envSTSEndpoint p ≠ "" ∧
         resolveSTSEndpoint envSTSEndpoint p ≠ "regional" ∧
         resolveSTSEndpoint envSTSEndpoint p ≠ "legacy" then
        Except.error ("invalid sts-regional-endpoints value " ++
          resolveSTSEndpoint envSTSEndpoint p ++
          ". Valid values are regional or legacy")
      else if p.Output ≠ "" ∧ p.Output ≠ "json" then
        Except.error ("invalid output format " ++ p.Output ++
          ". Only json is supported or omit for default")
      else if p.CacheDir ≠ "" ∧ p.IgnoreCache then
        Except.error "--cache-dir and --ignore-cache are mutually exclusive"
      else
        Except.ok { p with
          Region := region,
          Profile := resolveProfile envAwsProfile p,
          STSRegionalEndpoint := resolveSTSEndpoint envSTSEndpoint p }

/-! ## Concrete inputs used by witnesses -/

/-- A plain set of parameters: cluster selected by name, default cache. -/
def baseParams : Params :=
  { ClusterName := "my-cluster", ClusterId := "", Region := "us-west-2",
    Profile := "", RoleArn := "", IgnoreCache := false, ClientCertFile := "",
    ClientKeyFile := "", TTL := 900, Output := "",
    STSRegionalEndpoint := "regional", CacheDir := "" }

/-- Parameters with a cluster id shorter than four characters. -/
def shortIdParams : Params := { baseParams with ClusterName := "", ClusterId := "ab" }

/-- Parameters selecting the cluster through a full ARN. -/
def arnParams : Params :=
  { baseParams with
    ClusterName := "",
    ClusterId := "arn:aws:eks:eu-central-1:123456789012:cluster/prod",
    Region := "eu-central-1" }

/-- Parameters selecting cluster `prod` by short name in another region. -/
def prodParams : Params := { baseParams with ClusterName := "prod" }

/-- Parameters supplying both a cluster name and a cluster id. -/
def bothParams : Params :=
  { baseParams with
    ClusterId := "arn:aws:eks:us-west-2:123456789012:cluster/my-cluster" }

/-- Parameters supplying neither a cluster name nor a cluster id. -/
def neitherParams : Params := { baseParams with ClusterName := "" }

/-- Parameters that also configure client certificate and key files. -/
def certParams : Params :=
  { baseParams with ClientCertFile := "cert.pem", ClientKeyFile := "key.pem" }

/-- An environment in which every external call succeeds: home directory
`/home/user`, no readable cache entry, presigning yields the two bytes
`"hi"`, certificate and key files hold `CERTDATA`/`KEYDATA`. -/
def baseEnv : Env :=
  { homeDir := Except.ok "/home/user",
    mkdirResult := Except.ok (),
    readResult := none,
    parseTime := fun _ => none,
    fmtTime := fun _ => "2026-01-01T00:00:00Z",
    now := 0,
    certRead := Except.ok "CERTDATA",
    keyRead := Except.ok "KEYDATA",
    cfgResult := Except.ok (),
    describeResult := Except.ok (),
    presign := fun _ => some [104, 105],
    writeResult := Except.ok () }

/-- Like `baseEnv`, but the cache write fails with `disk full`. -/
def writeFailEnv : Env := { baseEnv with writeResult := Except.error "disk full" }

/-- The write operation `baseEnv`-style invocations attempt: the stripped
fresh token at the derived default cache path, mode `0600`. -/
def strippedWriteOp : WriteOp :=
  { path := "/home/user/.kube/cache/tokens/my-cluster_us-west-2.json",
    record := { Kind := "ExecCredential",
                APIVersion := "client.authentication.k8s.io/v1beta1",
                Status := { ExpirationTimestamp := "2026-01-01T00:00:00Z",
                            Token := "k8s-aws-v1.aGk",
                            ClientCertificateData := "",
                            ClientKeyData := "" } },
    perm := 384 }

/-- The record emitted by `getEKSToken baseEnv certParams`: the fresh token
carrying the augmented certificate and key material. -/
def freshEmittedWithCerts : EKSTokenResponse :=
  { Kind := "ExecCredential",
    APIVersion := "client.authentication.k8s.io/v1beta1",
    Status := { ExpirationTimestamp := "2026-01-01T00:00:00Z",
                Token := "k8s-aws-v1.aGk",
                ClientCertificateData := "CERTDATA",
                ClientKeyData := "KEYDATA" } }

/-! ## Theorems -/

/-- Two strings with the same character data are equal. -/
theorem string_data_inj {s t : String} (h : s.data = t.data) : s = t := by
  cases s; cases t; simp_all

/-- Every base64url output character comes from the 64-character alphabet,
which does not contain `=`. -/
theorem b64Char_ne_eq (n : Nat) : b64Char n ≠ '=' := by
  have hlt : n % 64 < 64 := Nat.mod_lt _ (by norm_num)
  have hall : ∀ i : Nat, i < 64 → base64URLAlphabet.getD i 'A' ≠ '=' := by decide
  exact hall (n % 64) hlt

/-- No character of an unpadded base64url encoding is `=`. -/
theorem mem_encodeRawURL_ne_eq (bs : List Nat) (c : Char)
    (h : c ∈ encodeRawURL bs) : c ≠ '=' := by
  unfold encodeRawURL at h
  obtain ⟨n, -, rfl⟩ := List.mem_map.mp h
  exact b64Char_ne_eq n

/-- `dropWhile` is the identity when the predicate rejects every element. -/
theorem dropWhile_of_forall_false (l : List Char)
    (h : ∀ c ∈ l, (c == '=') = false) :
    l.dropWhile (fun c => c == '=') = l := by
  cases l with
  | nil => rfl
  | cons a t => simp [List.dropWhile_cons, h a (List.mem_cons_self a t)]

/-- Trimming trailing `=` characters from a string containing none is the
identity. -/
theorem trimRightEquals_id (s : String) (h : ∀ c ∈ s.data, c ≠ '=') :
    trimRightEquals s = s := by
  unfold trimRightEquals
  have h2 : ∀ c ∈ s.data.reverse, (c == '=') = false := by
    intro c hc
    exact beq_eq_false_iff_ne.mpr (h c (List.mem_reverse.mp hc))
  rw [dropWhile_of_forall_false _ h2, List.reverse_reverse]

/-- Claim C9: for every presigned URL, the emitted bearer token equals the
fixed version marker `"k8s-aws-v1."` concatenated with the unpadded
base64url encoding of the URL; hence the token always starts with the
marker and contains no `=` character (the trailing `TrimRight` on `=` is a
no-op). -/
theorem token_format_v1_base64url (url : List Nat) :
    (mkToken url).data = tokenV1Marker.data ++ encodeRawURL url ∧
    '=' ∉ (mkToken url).data := by
  have hall : ∀ c ∈ (tokenV1Marker ++ (⟨encodeRawURL url⟩ : String)).data, c ≠ '=' := by
    intro c hc
    rw [String.data_append] at hc
    rcases List.mem_append.mp hc with hm | hm
    · have hmark : ∀ c ∈ tokenV1Marker.data, c ≠ '=' := by decide
      exact hmark c hm
    · exact mem_encodeRawURL_ne_eq url c hm
  have htrim := trimRightEquals_id _ hall
  unfold mkToken
  rw [htrim]
  refine ⟨String.data_append _ _, ?_⟩
  intro hc
  exact hall '=' hc rfl

/-- Claim C5: the validity check returns `true` exactly when the stored
expiration timestamp parses and the parsed instant is strictly after the
current instant; in particular an unparseable timestamp always yields
`false`, and the check is a total function. -/
theorem isTokenValid_iff (parse : String → Option Int)
    (token : EKSTokenResponse) (now : Int) :
    isTokenValid parse token now = true ↔
      ∃ e, parse token.Status.ExpirationTimestamp = some e ∧ now < e := by
  unfold isTokenValid
  cases h : parse token.Status.ExpirationTimestamp with
  | none => simp
  | some e => simp

/-- Claim C4: the expiration instant returned by the token generator is the
clock reading plus the requested TTL, and is unrelated to the fixed
`presignExpires` signature window: whenever the TTL differs from that
window, so does the recorded lifetime. -/
theorem generateEKSToken_expiration_ttl
    (presign : List (String × String) → Option (List Nat))
    (now : Int) (clusterName : String) (ttl : Int) (tok : String) (e : Int)
    (h : generateEKSToken presign now clusterName ttl = GenResult.ok tok e) :
    e = now + ttl ∧ (ttl ≠ presignExpires → e ≠ now + presignExpires) := by
  unfold generateEKSToken at h
  cases hp : presign (presignHeaders clusterName) with
  | none => rw [hp] at h; exact absurd h (by simp)
  | some url =>
    rw [hp] at h
    simp only [GenResult.ok.injEq] at h
    obtain ⟨-, he⟩ := h
    refine ⟨he.symm, ?_⟩
    intro hne heq
    rw [← he] at heq
    exact hne (add_left_cancel heq)

/-- Witness for C4 at a concrete presigner, clock and TTL. -/
theorem generateEKSToken_expiration_ttl_witness :
    (905 : Int) = 5 + 900 ∧
    ((900 : Int) ≠ presignExpires → (905 : Int) ≠ 5 + presignExpires) :=
  generateEKSToken_expiration_ttl (fun _ => some [104]) 5 "my-cluster" 900
    (mkToken [104]) 905 (by decide)

/-- Claim C1 evaluation: when presigning fails and everything before it
succeeded, `fetchNewToken` does not surface a wrapped error — the process
exits directly with code 1 from inside `generateEKSToken`
(src/main.go lines 395-398), leaving the `failed to generate EKS token`
wrapping of lines 319-322 unreachable. -/
theorem fetchNewToken_presign_failure_exits :
    fetchNewToken (Except.ok ()) (Except.ok ()) (fun _ => none) (fun _ => "")
      0 baseParams = ProcResult.exit 1 := rfl

/-- Claim C10: deriving the cache file path for a non-empty cluster id of
fewer than four characters evaluates the slice `ClusterId[0:4]` and aborts
with the slice-bounds runtime panic instead of returning a path or an
error. -/
theorem short_clusterId_slice_panics (cacheDir : String) (p : Params)
    (h1 : p.ClusterId ≠ "") (h2 : p.ClusterId.length < 4) :
    getCacheFilePathCore cacheDir p = GoStep.goPanic sliceOutOfRangeMsg := by
  have hslice : goStringSlice p.ClusterId 0 4 = none := by
    unfold goStringSlice
    rw [if_neg]
    omega
  unfold getCacheFilePathCore clusterIdentifierOf
  rw [if_pos h1, hslice]

/-- Witness for C10 at the two-character cluster id `"ab"`. -/
theorem short_clusterId_slice_panics_witness :
    getCacheFilePathCore "/tmp" shortIdParams = GoStep.goPanic sliceOutOfRangeMsg :=
  short_clusterId_slice_panics "/tmp" shortIdParams (by decide) (by decide)

/-- `splitOnChar` never returns the empty list, matching Go `strings.Split`. -/
theorem splitOnChar_ne_nil (sep : Char) (l : List Char) :
    splitOnChar sep l ≠ [] := by
  cases l with
  | nil => simp [splitOnChar]
  | cons c rest =>
    unfold splitOnChar
    cases h : splitOnChar sep rest with
    | nil => simp
    | cons a t => by_cases hc : c = sep <;> simp [hc]

/-- Splitting distributes over a separator occurrence. -/
theorem splitOnChar_append_sep (sep : Char) (a ys : List Char) :
    splitOnChar sep (a ++ sep :: ys) =
      splitOnChar sep a ++ splitOnChar sep ys := by
  induction a with
  | nil =>
    cases h : splitOnChar sep ys with
    | nil => exact absurd h (splitOnChar_ne_nil sep ys)
    | cons b t => simp [splitOnChar, h]
  | cons x a ih =>
    cases h : splitOnChar sep a with
    | nil => exact absurd h (splitOnChar_ne_nil sep a)
    | cons b t =>
      by_cases hx : x = sep
      · subst hx
        simp [splitOnChar, ih, h]
      · simp [splitOnChar, ih, h, hx]

/-- A list without the separator splits into itself. -/
theorem splitOnChar_of_not_mem (sep : Char) (l : List Char) (h : sep ∉ l) :
    splitOnChar sep l = [l] := by
  induction l with
  | nil => rfl
  | cons c rest ih =>
    have hc : ¬c = sep := fun hh => h (by rw [← hh]; exact List.mem_cons_self c rest)
    have hr : sep ∉ rest := fun hm => h (List.mem_cons_of_mem _ hm)
    simp [splitOnChar, ih hr, hc]

/-- A final segment that is non-empty, not `.` and not `..` survives the
`Clean` element loop on top of the stack, whatever came before it. -/
theorem cleanStack_append_last (fn : List Char)
    (h1 : ¬(fn = [] ∨ fn = ['.'])) (h2 : fn ≠ ['.', '.']) (rooted : Bool) :
    ∀ (segs : List (List Char)) (acc : List (List Char)),
      cleanStack rooted acc (segs ++ [fn]) = fn :: cleanStack rooted acc segs := by
  intro segs
  induction segs with
  | nil =>
    intro acc
    simp only [List.nil_append]
    unfold cleanStack
    rw [if_neg h1, if_neg h2]
    rfl
  | cons seg rest ih =>
    intro acc
    simp only [List.cons_append]
    unfold cleanStack
    by_cases hs1 : seg = [] ∨ seg = ['.']
    · simp only [if_pos hs1]
      exact ih acc
    · simp only [if_neg hs1]
      by_cases hs2 : seg = ['.', '.']
      · simp only [if_pos hs2]
        cases acc with
        | nil =>
          cases rooted with
          | false => dsimp only; exact ih [seg]
          | true => dsimp only; exact ih []
        | cons top others =>
          dsimp only
          by_cases ht : top = ['.', '.']
          · simp only [if_pos ht]
            exact ih (seg :: top :: others)
          · simp only [if_neg ht]
            exact ih others
      · simp only [if_neg hs2]
        exact ih (seg :: acc)

/-- Joining with a final extra segment appends a separator and the segment. -/
theorem joinSegs_cons_last (x : List Char) :
    ∀ (l : List (List Char)), l ≠ [] →
      joinSegs (l ++ [x]) = joinSegs l ++ '/' :: x := by
  intro l
  induction l with
  | nil => intro h; contradiction
  | cons s r ih =>
    intro _
    cases r with
    | nil => rfl
    | cons s2 r2 =>
      have hr := ih (by simp)
      have e1 : joinSegs (s :: s2 :: (r2 ++ [x])) =
          s ++ '/' :: joinSegs (s2 :: (r2 ++ [x])) := rfl
      have e2 : joinSegs (s :: s2 :: r2) =
          s ++ '/' :: joinSegs (s2 :: r2) := rfl
      simp only [List.cons_append] at hr ⊢
      rw [e1, hr, e2]
      simp [List.append_assoc]

/-- The rooted flag of a joined path depends only on the directory part. -/
theorem isRooted_append_sep (d fn : List Char) :
    isRooted ⟨d ++ '/' :: fn⟩ = rootedOf d := by
  cases d with
  | nil => rfl
  | cons c rest => rfl

/-- `cleanOut` on a non-empty assembled path is that path. -/
theorem cleanOut_data (rooted : Bool) (stack : List (List Char))
    (h : (if rooted then ['/'] else []) ++ joinSegs stack ≠ []) :
    (cleanOut rooted stack).data =
      (if rooted then ['/'] else []) ++ joinSegs stack := by
  unfold cleanOut
  cases hx : (if rooted then ['/'] else []) ++ joinSegs stack with
  | nil => exact absurd hx h
  | cons a b => rfl

/-- `Clean` of a joined path whose final segment is slash-free, non-empty
and not a dot element keeps that segment verbatim after a prefix that
depends only on the directory part. -/
theorem goFilepathClean_sep_last (d fn : List Char)
    (h1 : ¬(fn = [] ∨ fn = ['.'])) (h2 : fn ≠ ['.', '.'])
    (h4 : '/' ∉ fn) :
    (goFilepathClean ⟨d ++ '/' :: fn⟩).data = cleanJoinedPre d ++ fn := by
  have hfn_ne : fn ≠ [] := fun hh => h1 (Or.inl hh)
  unfold goFilepathClean
  rw [isRooted_append_sep]
  rw [show (⟨d ++ '/' :: fn⟩ : String).data = d ++ '/' :: fn from rfl]
  rw [splitOnChar_append_sep, splitOnChar_of_not_mem '/' fn h4]
  rw [cleanStack_append_last fn h1 h2]
  rw [List.reverse_cons]
  show (cleanOut (rootedOf d) (cleanJoinedStack d ++ [fn])).data =
    cleanJoinedPre d ++ fn
  have hne : (if rootedOf d then ['/'] else []) ++
      joinSegs (cleanJoinedStack d ++ [fn]) ≠ [] := by
    intro hc
    have hb := (List.append_eq_nil.mp hc).2
    cases hS : cleanJoinedStack d with
    | nil => rw [hS] at hb; exact hfn_ne (by simpa [joinSegs] using hb)
    | cons s rest =>
      rw [hS, joinSegs_cons_last fn (s :: rest) (by simp)] at hb
      exact absurd (List.append_eq_nil.mp hb).2 (by simp)
  rw [cleanOut_data _ _ hne]
  unfold cleanJoinedPre
  cases hS : cleanJoinedStack d with
  | nil => simp [joinSegs]
  | cons s rest =>
    rw [joinSegs_cons_last fn (s :: rest) (by simp)]
    simp [List.append_assoc]

/-- `Clean` of a one-segment slash-free non-dot path is the identity. -/
theorem goFilepathClean_of_slashfree (fn : List Char)
    (h1 : ¬(fn = [] ∨ fn = ['.'])) (h2 : fn ≠ ['.', '.'])
    (h4 : '/' ∉ fn) :
    goFilepathClean ⟨fn⟩ = ⟨fn⟩ := by
  have hroot : isRooted ⟨fn⟩ = false := by
    cases fn with
    | nil => rfl
    | cons c r =>
      have hc : ¬c = '/' :=
        fun hh => h4 (by rw [← hh]; exact List.mem_cons_self c r)
      simp [isRooted, hc]
  have hstack : cleanStack false [] [fn] = [fn] := by
    unfold cleanStack
    rw [if_neg h1, if_neg h2]
    rfl
  apply string_data_inj
  unfold goFilepathClean
  rw [hroot, show (⟨fn⟩ : String).data = fn from rfl,
    splitOnChar_of_not_mem '/' fn h4, hstack, List.reverse_singleton]
  rw [cleanOut_data false [fn] (by simpa [joinSegs] using fun hh => h1 (Or.inl hh))]
  simp [joinSegs]

/-- `filepath.Join` against a fixed directory is injective over slash-free
non-dot file names. -/
theorem goFilepathJoin_inj_last (d : String) (fn1 fn2 : List Char)
    (h11 : ¬(fn1 = [] ∨ fn1 = ['.'])) (h12 : fn1 ≠ ['.', '.'])
    (h13 : '/' ∉ fn1)
    (h21 : ¬(fn2 = [] ∨ fn2 = ['.'])) (h22 : fn2 ≠ ['.', '.'])
    (h23 : '/' ∉ fn2)
    (h : goFilepathJoin d ⟨fn1⟩ = goFilepathJoin d ⟨fn2⟩) : fn1 = fn2 := by
  unfold goFilepathJoin at h
  by_cases hd : d = ""
  · have hne1 : ¬(⟨fn1⟩ : String) = "" :=
      fun hh => h11 (Or.inl (congrArg String.data hh))
    have hne2 : ¬(⟨fn2⟩ : String) = "" :=
      fun hh => h21 (Or.inl (congrArg String.data hh))
    simp only [if_pos hd, if_neg hne1, if_neg hne2,
      goFilepathClean_of_slashfree fn1 h11 h12 h13,
      goFilepathClean_of_slashfree fn2 h21 h22 h23] at h
    exact congrArg String.data h
  · simp only [if_neg hd] at h
    have e1 : (d ++ "/" ++ (⟨fn1⟩ : String)) = (⟨d.data ++ '/' :: fn1⟩ : String) :=
      string_data_inj (by simp [String.data_append])
    have e2 : (d ++ "/" ++ (⟨fn2⟩ : String)) = (⟨d.data ++ '/' :: fn2⟩ : String) :=
      string_data_inj (by simp [String.data_append])
    rw [e1, e2] at h
    have hdata := congrArg String.data h
    rw [goFilepathClean_sep_last d.data fn1 h11 h12 h13,
      goFilepathClean_sep_last d.data fn2 h21 h22 h23] at hdata
    exact List.append_cancel_left hdata

/-- Splitting at a separator character that occurs in neither left part is
injective in both parts. -/
theorem sep_append_inj (sep : Char) :
    ∀ (a1 a2 b1 b2 : List Char), sep ∉ a1 → sep ∉ a2 →
      a1 ++ sep :: b1 = a2 ++ sep :: b2 → a1 = a2 ∧ b1 = b2 := by
  intro a1
  induction a1 with
  | nil =>
    intro a2 b1 b2 _ h2 h
    cases a2 with
    | nil => simpa using h
    | cons d u =>
      simp only [List.nil_append, List.cons_append, List.cons.injEq] at h
      exact absurd (by rw [h.1]; exact List.mem_cons_self d u) h2
  | cons c t ih =>
    intro a2 b1 b2 h1 h2 h
    cases a2 with
    | nil =>
      simp only [List.nil_append, List.cons_append, List.cons.injEq] at h
      exact absurd (by rw [← h.1]; exact List.mem_cons_self c t) h1
    | cons d u =>
      simp only [List.cons_append, List.cons.injEq] at h
      have h1t : sep ∉ t := fun hm => h1 (List.mem_cons_of_mem _ hm)
      have h2u : sep ∉ u := fun hm => h2 (List.mem_cons_of_mem _ hm)
      obtain ⟨hA, hB⟩ := ih u b1 b2 h1t h2u h.2
      exact ⟨by rw [h.1, hA], hB⟩

/-- The cache file name `shortName ++ "_" ++ region ++ ".json"` determines
the short name and the region, provided the regions contain no `_` (AWS
region names never do; cluster names may). -/
theorem cacheFileName_inj (s1 s2 r1 r2 : String)
    (h1 : '_' ∉ r1.data) (h2 : '_' ∉ r2.data)
    (h : cacheFileName s1 r1 = cacheFileName s2 r2) : s1 = s2 ∧ r1 = r2 := by
  have hd : s1.data ++ '_' :: (r1.data ++ ['.', 'j', 's', 'o', 'n']) =
      s2.data ++ '_' :: (r2.data ++ ['.', 'j', 's', 'o', 'n']) := by
    have h0 := congrArg String.data h
    simpa only [cacheFileName, String.data_append, List.append_assoc,
      List.singleton_append] using h0
  have hrev := congrArg List.reverse hd
  simp only [List.reverse_append, List.reverse_cons, List.append_assoc,
    List.singleton_append, List.cons_append, List.nil_append,
    List.reverse_nil, List.cons.injEq, true_and] at hrev
  obtain ⟨hr, hs⟩ := sep_append_inj '_' _ _ _ _
    (by simpa using h1) (by simpa using h2) hrev
  exact ⟨string_data_inj (List.reverse_injective hs),
    string_data_inj (List.reverse_injective hr)⟩

/-- Character decomposition of the cache file name. -/
theorem cacheFileName_data (s r : String) :
    (cacheFileName s r).data =
      s.data ++ '_' :: (r.data ++ ['.', 'j', 's', 'o', 'n']) := by
  simp only [cacheFileName, String.data_append, List.append_assoc,
    List.singleton_append, List.cons_append, List.nil_append]

/-- For slash-free short name and region, the cache file name is a
non-empty, slash-free segment that is neither `.` nor `..`, so
`filepath.Clean` keeps it verbatim. -/
theorem cacheFileName_cond (s r : String)
    (hs : '/' ∉ s.data) (hq : '/' ∉ r.data) :
    ¬((cacheFileName s r).data = [] ∨ (cacheFileName s r).data = ['.']) ∧
    (cacheFileName s r).data ≠ ['.', '.'] ∧
    '/' ∉ (cacheFileName s r).data := by
  rw [cacheFileName_data]
  have hmem : '_' ∈ s.data ++ '_' :: (r.data ++ ['.', 'j', 's', 'o', 'n']) :=
    List.mem_append_right _ (List.mem_cons_self _ _)
  refine ⟨?_, ?_, ?_⟩
  · intro hor
    cases hor with
    | inl hnil => rw [hnil] at hmem; exact absurd hmem (by simp)
    | inr hdot => rw [hdot] at hmem; exact absurd hmem (by simp)
  · intro hdd
    rw [hdd] at hmem
    exact absurd hmem (by simp)
  · intro hin
    rcases List.mem_append.mp hin with hm | hm
    · exact hs hm
    · simp only [List.mem_cons, List.mem_append] at hm
      rcases hm with hm | hm | hm
      · exact absurd hm (by decide)
      · exact hq hm
      · exact absurd hm (by decide)

/-- Claim C3: for every cache root, the derived cache file path is
deterministic — equal inputs give equal paths — and injective over the
(short cluster name, region) pair, for valid inputs: a run where the short
name was successfully derived, the short name contains no `/`, and the
region contains neither `_` nor `/` (AWS cluster names allow only
alphanumerics, hyphens and underscores; region names only lowercase
letters, digits and hyphens).  The path model includes `filepath.Join`
cleaning. -/
theorem cachePath_deterministic_injective (root : String) (p1 p2 : Params)
    (s1 s2 : String)
    (h1 : clusterIdentifierOf p1 = GoStep.ok s1)
    (h2 : clusterIdentifierOf p2 = GoStep.ok s2)
    (hs1 : '/' ∉ s1.data) (hs2 : '/' ∉ s2.data)
    (hr1 : '_' ∉ p1.Region.data) (hr2 : '_' ∉ p2.Region.data)
    (hq1 : '/' ∉ p1.Region.data) (hq2 : '/' ∉ p2.Region.data) :
    (p1 = p2 → getCacheFilePathCore root p1 = getCacheFilePathCore root p2) ∧
    ((s1, p1.Region) ≠ (s2, p2.Region) →
      getCacheFilePathCore root p1 ≠ getCacheFilePathCore root p2) := by
  constructor
  · intro h; rw [h]
  · intro hne heq
    unfold getCacheFilePathCore at heq
    rw [h1, h2] at heq
    simp only [GoStep.ok.injEq] at heq
    have hjoin : goFilepathJoin root ⟨(cacheFileName s1 p1.Region).data⟩ =
        goFilepathJoin root ⟨(cacheFileName s2 p2.Region).data⟩ := heq
    obtain ⟨c11, c12, c13⟩ := cacheFileName_cond s1 p1.Region hs1 hq1
    obtain ⟨c21, c22, c23⟩ := cacheFileName_cond s2 p2.Region hs2 hq2
    have hfn := goFilepathJoin_inj_last root _ _ c11 c12 c13 c21 c22 c23 hjoin
    obtain ⟨hs, hr⟩ :=
      cacheFileName_inj s1 s2 p1.Region p2.Region hr1 hr2 (string_data_inj hfn)
    exact hne (by rw [hs, hr])

/-- Witness for C3: the ARN `...cluster/prod` in `eu-central-1` and the short
name `prod` in `us-west-2` share a short name but differ in region, so their
cache paths differ. -/
theorem cachePath_deterministic_injective_witness :
    getCacheFilePathCore "/root/.kube/cache/tokens" arnParams ≠
      getCacheFilePathCore "/root/.kube/cache/tokens" prodParams :=
  (cachePath_deterministic_injective "/root/.kube/cache/tokens" arnParams
    prodParams "prod" "prod" (by decide) (by decide) (by decide) (by decide)
    (by decide) (by decide) (by decide) (by decide)).2 (by decide)

/-- Claim C2 counterexample: a concrete default-cache invocation creates the
cache directory with mode `0755` (octal 755 = 493), which grants group and
others read and traversal access — not owner-only traversal as claimed. -/
theorem cacheDirPerm_not_owner_only :
    (getCacheFilePath (Except.ok "/home/user") (Except.ok ()) baseParams).2 =
      some { dir := "/home/user/.kube/cache/tokens", perm := 493 } ∧
    ¬ ownerOnlyPerm 493 := by
  refine ⟨by decide, fun h => ?_⟩
  unfold ownerOnlyPerm at h
  omega

/-- Claim C2 (amended): every attempted cache-directory creation uses mode
`0755` (owner rwx, group and others read + traverse — not owner-only), while
every cache-file write uses mode `0600`, which is owner-only read/write. -/
theorem cache_permissions_amended (homeDir : Except String String)
    (mkdirResult : Except String Unit) (p : Params) (op : MkdirOp)
    (cacheFile : String) (tok : EKSTokenResponse) :
    ((getCacheFilePath homeDir mkdirResult p).2 = some op → op.perm = 0o755) ∧
    (writeCachedToken cacheFile tok).perm = 0o600 ∧
    ownerOnlyPerm (writeCachedToken cacheFile tok).perm := by
  refine ⟨?_, rfl, ?_⟩
  · intro h
    unfold getCacheFilePath at h
    split at h
    · simp at h
    · split at h
      · simp only [Option.some.injEq] at h
        rw [← h]
        rfl
      · simp only [Option.some.injEq] at h
        rw [← h]
        rfl
  · unfold ownerOnlyPerm
    show writeCacheFilePerm % 64 = 0
    decide

/-- Witness for C2's amended statement at a concrete invocation. -/
theorem cache_permissions_amended_witness :
    (({ dir := "/home/user/.kube/cache/tokens", perm := 493 } : MkdirOp).perm
      = 0o755) ∧
    (writeCachedToken "/tmp/f.json" (stripSecrets
      { Kind := "ExecCredential",
        APIVersion := "client.authentication.k8s.io/v1beta1",
        Status := { ExpirationTimestamp := "2026-01-01T00:00:00Z",
                    Token := "k8s-aws-v1.aGk", ClientCertificateData := "",
                    ClientKeyData := "" } })).perm = 0o600 ∧
    ownerOnlyPerm (writeCachedToken "/tmp/f.json" (stripSecrets
      { Kind := "ExecCredential",
        APIVersion := "client.authentication.k8s.io/v1beta1",
        Status := { ExpirationTimestamp := "2026-01-01T00:00:00Z",
                    Token := "k8s-aws-v1.aGk", ClientCertificateData := "",
                    ClientKeyData := "" } })).perm := by
  have h := cache_permissions_amended (Except.ok "/home/user") (Except.ok ())
    baseParams { dir := "/home/user/.kube/cache/tokens", perm := 493 }
    "/tmp/f.json" (stripSecrets
      { Kind := "ExecCredential",
        APIVersion := "client.authentication.k8s.io/v1beta1",
        Status := { ExpirationTimestamp := "2026-01-01T00:00:00Z",
                    Token := "k8s-aws-v1.aGk", ClientCertificateData := "",
                    ClientKeyData := "" } })
  exact ⟨h.1 (by decide), h.2.1, h.2.2⟩

/-- Any record reaching the cache-write call is the stripped copy, the
invocation then succeeds with the un-stripped token emitted, and a write
failure is reported exactly as one warning. -/
theorem persistStep_spec (env : Env) (params : Params)
    (emit : EKSTokenResponse) (w : WriteOp)
    (h : (persistStep env params emit).written = some w) :
    w.record = stripSecrets emit ∧
    (persistStep env params emit).result = ExecResult.ok emit ∧
    ∀ e, env.writeResult = Except.error e →
      (persistStep env params emit).warnings =
        ["Warning: failed to cache token: " ++ e] := by
  unfold persistStep at h ⊢
  by_cases hic : params.IgnoreCache = true
  · rw [if_pos hic] at h
    simp at h
  · rw [if_neg hic] at h ⊢
    cases hcf : (getCacheFilePath env.homeDir env.mkdirResult params).1 with
    | goPanic m => rw [hcf] at h; simp at h
    | err e2 => rw [hcf] at h; simp at h
    | ok cacheFile =>
      rw [hcf] at h
      dsimp only at h ⊢
      cases hw : env.writeResult with
      | error e2 =>
        rw [hw] at h
        dsimp only at h ⊢
        injection h with h2
        refine ⟨by rw [← h2]; rfl, rfl, ?_⟩
        intro e he
        injection he with he2
        rw [he2]
      | ok u =>
        rw [hw] at h
        dsimp only at h ⊢
        injection h with h2
        refine ⟨by rw [← h2]; rfl, rfl, ?_⟩
        intro e he
        exact absurd he (by simp)

/-- If the fresh-token branch reached the cache write, the whole branch is a
`persistStep` run on the augmented token. -/
theorem freshTokenPath_written_eq (env : Env) (params : Params) (w : WriteOp)
    (h : (freshTokenPath env params).written = some w) :
    ∃ emit, freshTokenPath env params = persistStep env params emit := by
  unfold freshTokenPath at h ⊢
  cases hf : fetchNewToken env.cfgResult env.describeResult env.presign
      env.fmtTime env.now params with
  | exit c => rw [hf] at h; simp at h
  | err e => rw [hf] at h; simp at h
  | ok token =>
    rw [hf] at h
    dsimp only at h ⊢
    cases ha : augmentStep env.certRead env.keyRead params token with
    | error e => rw [ha] at h; simp at h
    | ok emit => exact ⟨emit, rfl⟩

/-- If an invocation reached the cache write, it went through the
fresh-token branch (the cache-hit branch never writes). -/
theorem getEKSToken_written_fresh (env : Env) (params : Params) (w : WriteOp)
    (h : (getEKSToken env params).written = some w) :
    getEKSToken env params = freshTokenPath env params := by
  unfold getEKSToken at h ⊢
  by_cases hic : params.IgnoreCache = true
  · rw [if_pos hic]
  · rw [if_neg hic] at h ⊢
    cases hcf : (getCacheFilePath env.homeDir env.mkdirResult params).1 with
    | goPanic m => rw [hcf] at h; simp at h
    | err e2 => rw [hcf] at h; simp at h
    | ok cacheFile =>
      rw [hcf] at h
      dsimp only at h ⊢
      cases hr : env.readResult with
      | none => rfl
      | some cached =>
        rw [hr] at h
        dsimp only at h ⊢
        by_cases hv : isTokenValid env.parseTime cached env.now = true
        · rw [if_pos hv] at h ⊢
          cases ha : augmentStep env.certRead env.keyRead params cached with
          | error e => rw [ha] at h; simp at h
          | ok tok => rw [ha] at h; simp at h
        · rw [if_neg hv]

/-- Claim C6: every record handed to the cache write has empty client
certificate and client key fields — even in invocations whose emitted
record carries non-empty certificate/key material. -/
theorem persisted_record_has_no_secrets (env : Env) (params : Params)
    (w : WriteOp) (h : (getEKSToken env params).written = some w) :
    w.record.Status.ClientCertificateData = "" ∧
    w.record.Status.ClientKeyData = "" := by
  have hfresh := getEKSToken_written_fresh env params w h
  rw [hfresh] at h
  obtain ⟨emit, hpe⟩ := freshTokenPath_written_eq env params w h
  rw [hpe] at h
  have hrec := (persistStep_spec env params emit w h).1
  rw [hrec]
  exact ⟨rfl, rfl⟩

/-- Claim C7: when the cache-write step fails, the invocation is not
aborted: the result is still a successfully emitted token (exit code
unchanged) and the failure shows up only as the single warning line. -/
theorem cache_write_failure_warns_only (env : Env) (params : Params)
    (e : String) (w : WriteOp)
    (hw : env.writeResult = Except.error e)
    (h : (getEKSToken env params).written = some w) :
    (∃ tok, (getEKSToken env params).result = ExecResult.ok tok) ∧
    (getEKSToken env params).warnings =
      ["Warning: failed to cache token: " ++ e] := by
  have hfresh := getEKSToken_written_fresh env params w h
  rw [hfresh] at h ⊢
  obtain ⟨emit, hpe⟩ := freshTokenPath_written_eq env params w h
  rw [hpe] at h ⊢
  obtain ⟨-, hres, hwarn⟩ := persistStep_spec env params emit w h
  exact ⟨⟨emit, hres⟩, hwarn e hw⟩

/-- Witness for C6 at a concrete invocation whose emitted record carries
non-empty certificate material while the persisted copy does not. -/
theorem persisted_record_has_no_secrets_witness :
    (getEKSToken baseEnv certParams).written = some strippedWriteOp ∧
    strippedWriteOp.record.Status.ClientCertificateData = "" ∧
    strippedWriteOp.record.Status.ClientKeyData = "" ∧
    (getEKSToken baseEnv certParams).result = ExecResult.ok freshEmittedWithCerts ∧
    freshEmittedWithCerts.Status.ClientCertificateData = "CERTDATA" := by
  have h : (getEKSToken baseEnv certParams).written = some strippedWriteOp := by
    decide
  obtain ⟨h1, h2⟩ := persisted_record_has_no_secrets baseEnv certParams
    strippedWriteOp h
  exact ⟨h, h1, h2, by decide, by decide⟩

/-- Witness for C7 at a concrete invocation whose cache write fails with
`disk full`. -/
theorem cache_write_failure_warns_only_witness :
    (∃ tok, (getEKSToken writeFailEnv baseParams).result = ExecResult.ok tok) ∧
    (getEKSToken writeFailEnv baseParams).warnings =
      ["Warning: failed to cache token: " ++ "disk full"] :=
  cache_write_failure_warns_only writeFailEnv baseParams "disk full"
    strippedWriteOp rfl (by decide)

/-- Claim C8: supplying both cluster identifiers, or neither, makes
configuration resolution fail with the corresponding validation error, and
every successfully resolved configuration has exactly one of cluster name
and cluster id set. -/
theorem preRunE_cluster_exclusivity
    (envAwsRegion envAwsDefaultRegion envAwsProfile envSTSEndpoint : String)
    (p : Params) :
    ((p.ClusterName = "" ∧ p.ClusterId = "") →
      preRunE envAwsRegion envAwsDefaultRegion envAwsProfile envSTSEndpoint p =
        Except.error "either --cluster-name or --cluster-id must be specified") ∧
    ((p.ClusterName ≠ "" ∧ p.ClusterId ≠ "") →
      preRunE envAwsRegion envAwsDefaultRegion envAwsProfile envSTSEndpoint p =
        Except.error "--cluster-name and --cluster-id are mutually exclusive") ∧
    (∀ p2, preRunE envAwsRegion envAwsDefaultRegion envAwsProfile
        envSTSEndpoint p = Except.ok p2 →
      (p2.ClusterName ≠ "" ∧ p2.ClusterId = "") ∨
      (p2.ClusterName = "" ∧ p2.ClusterId ≠ "")) := by
  refine ⟨?_, ?_, ?_⟩
  · intro hb
    unfold preRunE
    rw [if_pos hb]
  · intro hb
    unfold preRunE
    rw [if_neg (fun hc => hb.1 hc.1), if_pos hb]
  · intro p2 h
    unfold preRunE at h
    by_cases h1 : p.ClusterName = "" ∧ p.ClusterId = ""
    · rw [if_pos h1] at h
      exact absurd h (by simp)
    · rw [if_neg h1] at h
      by_cases h2 : p.ClusterName ≠ "" ∧ p.ClusterId ≠ ""
      · rw [if_pos h2] at h
        exact absurd h (by simp)
      · rw [if_neg h2] at h
        cases hr : resolveRegion envAwsRegion envAwsDefaultRegion p with
        | none =>
          rw [hr] at h
          exact absurd h (by simp)
        | some region =>
          rw [hr] at h
          dsimp only at h
          split at h
          · exact absurd h (by simp)
          · split at h
            · exact absurd h (by simp)
            · split at h
              · exact absurd h (by simp)
              · injection h with h3
                have hn : p2.ClusterName = p.ClusterName := by rw [← h3]
                have hi : p2.ClusterId = p.ClusterId := by rw [← h3]
                rw [hn, hi]
                tauto

/-- Witness for C8: both identifiers, neither identifier, and a resolved
valid configuration. -/
theorem preRunE_cluster_exclusivity_witness :
    preRunE "" "" "" "" bothParams =
      Except.error "--cluster-name and --cluster-id are mutually exclusive" ∧
    preRunE "" "" "" "" neitherParams =
      Except.error "either --cluster-name or --cluster-id must be specified" ∧
    ((baseParams.ClusterName ≠ "" ∧ baseParams.ClusterId = "") ∨
      (baseParams.ClusterName = "" ∧ baseParams.ClusterId ≠ "")) :=
  ⟨(preRunE_cluster_exclusivity "" "" "" "" bothParams).2.1
      ⟨by decide, by decide⟩,
   (preRunE_cluster_exclusivity "" "" "" "" neitherParams).1 ⟨rfl, rfl⟩,
   (preRunE_cluster_exclusivity "" "" "" "" baseParams).2.2 baseParams rfl⟩

end AwsEksGetToken
